import Mathlib

/-!
Verification of the event-subscription registry and command registry of
microsoft/vscode-wasm, as a shallow embedding of
`rust-api/rust/src/common/mod.rs` (EventEmitter),
`rust-api/rust/src/commands/mod.rs` (register_command / execute_command)
and `vscode-rust-api/rust/src/common/mod.rs` (the EventEmitter duplicate).

Listener callbacks are first-class closures in the source; here a listener
is represented by its observable behaviour: a `tag` identifying the user
callback (so an invocation of the callback is observable as its tag) and
the list `disposals` of handles whose disposers the callback invokes when
it runs.  The `hook` / `unhook` procedures of the emitter are opaque host
calls in the source, observable only through how often they are invoked,
so the state carries cumulative call counters for them; likewise `issued`
records, purely as an observation, the handles returned by `on`.
-/

/-- Observable behaviour of one listener callback registered with `on`. -/
structure ListenerSpec where
  tag : Nat
  disposals : List Nat
deriving Repr, DecidableEq

/-- State of `EventEmitter` from `rust-api/rust/src/common/mod.rs`:
`next_id` and the `IndexMap` of listeners in insertion order, plus
observation counters for the `hook` / `unhook` host calls and the list of
handles handed out by `on`. -/
structure EmitterState where
  nextId : Nat
  listeners : List (Nat × ListenerSpec)
  hookCalls : Nat
  unhookCalls : Nat
  issued : List Nat
deriving Repr, DecidableEq

/-- Constructor `EventEmitter::new`: `next_id` starts at 1, no listeners, and the
stored `hook` / `unhook` have not been invoked. -/
def EmitterState.initial : EmitterState :=
  { nextId := 1, listeners := [], hookCalls := 0, unhookCalls := 0, issued := [] }

/-- Semantics of `IndexMap::insert`: replace the value in place when the key is present,
otherwise append the pair at the end. -/
def indexInsert (k : Nat) (v : ListenerSpec) (m : List (Nat × ListenerSpec)) :
    List (Nat × ListenerSpec) :=
  if m.any (fun p => p.1 == k) then
    m.map (fun p => if p.1 == k then (k, v) else p)
  else
    m ++ [(k, v)]

/-- Semantics of `IndexMap::shift_remove`: drop the entry with the given key, keeping
the relative order of all remaining entries. -/
def shiftRemove (k : Nat) (m : List (Nat × ListenerSpec)) :
    List (Nat × ListenerSpec) :=
  m.filter (fun p => p.1 != k)

namespace EventEmitter

/-- Subscription `EventEmitter::on`: when the listener map is empty, invoke `hook`;
assign `id = next_id`, increment `next_id`, insert the listener under `id`.
Returns the assigned handle together with the new state; the handle is also
recorded in the `issued` observation list. -/
def «on» (s : EmitterState) (tag : Nat) (disposals : List Nat) :
    Nat × EmitterState :=
  let s₁ := if s.listeners.length = 0 then
              { s with hookCalls := s.hookCalls + 1 }
            else s
  let id := s₁.nextId
  (id, { s₁ with
           nextId := s₁.nextId + 1,
           listeners := indexInsert id ⟨tag, disposals⟩ s₁.listeners,
           issued := s₁.issued ++ [id] })

/-- The disposer closure returned by `EventEmitter::on`:
`shift_remove` the captured `id`, then — unconditionally — if the map is
now empty, invoke `unhook`. -/
def dispose (s : EmitterState) (id : Nat) : EmitterState :=
  let s₁ := { s with listeners := shiftRemove id s.listeners }
  if s₁.listeners.length = 0 then
    { s₁ with unhookCalls := s₁.unhookCalls + 1 }
  else s₁

/-- Loop body of `EventEmitter::fire`: the map is iterated under a shared
`RefCell` borrow held for the whole loop, so a listener whose body calls a
disposer reaches `borrow_mut` on the same `RefCell` and panics
(`BorrowMutError`).  On success, returns the tags of the invoked listeners
in iteration order. -/
def fireLoop : List (Nat × ListenerSpec) → List Nat →
    Except String (List Nat)
  | [], acc => Except.ok acc.reverse
  | (_, l) :: rest, acc =>
      match l.disposals with
      | [] => fireLoop rest (l.tag :: acc)
      | _ :: _ => Except.error "RefCell BorrowMutError"

/-- Fan-out `EventEmitter::fire`: invoke every listener in the map in order,
passing the event; returns `()` in the source, so the only observables are
the listener invocations (their tags, in order) — or the panic when a
listener mutates the registry reentrantly.  The registry state itself is
unchanged by a completed fire. -/
def fire (s : EmitterState) : Except String (List Nat × EmitterState) :=
  match fireLoop s.listeners [] with
  | Except.ok invoked => Except.ok (invoked, s)
  | Except.error e => Except.error e

end EventEmitter

/-- A client-visible operation on the emitter: a call to `on`, or an
invocation of the disposer that `on` returned for handle `id`. -/
inductive Op where
  | on (tag : Nat) (disposals : List Nat)
  | dispose (id : Nat)
deriving Repr, DecidableEq

/-- One operation applied to the emitter state. -/
def Op.step (s : EmitterState) : Op → EmitterState
  | Op.on tag ds => (EventEmitter.on s tag ds).2
  | Op.dispose id => EventEmitter.dispose s id

/-- The state reached by a sequence of `on` / disposer calls starting from
the freshly constructed emitter. -/
def runOps (ops : List Op) : EmitterState :=
  ops.foldl Op.step EmitterState.initial

/-- A sequence of operations is valid when every disposer invocation is of
a disposer that `on` actually returned earlier in the sequence (disposers
only exist for issued handles; a disposer may be invoked any number of
times). -/
def validFrom (s : EmitterState) : List Op → Bool
  | [] => true
  | op :: rest =>
      (match op with
       | Op.on _ _ => true
       | Op.dispose id => s.issued.contains id)
      && validFrom (op.step s) rest

/-- Validity from the initial emitter state. -/
def validOps (ops : List Op) : Bool :=
  validFrom EmitterState.initial ops

/-- State of the command registry: the `HANDLERS` map and the observation
list of host-side `commands::register_command` declarations, in call
order. -/
structure CommandState where
  handlers : List (String × Nat)
  declared : List String
deriving Repr, DecidableEq

/-- The empty command registry (`Lazy::new(|| HashMap::new())`). -/
def CommandState.initial : CommandState :=
  { handlers := [], declared := [] }

/-- Semantics of `HashMap::insert`: replace the value when the key is present, otherwise
add the pair. -/
def hashInsert (k : String) (v : Nat) (m : List (String × Nat)) :
    List (String × Nat) :=
  if m.any (fun p => p.1 == k) then
    m.map (fun p => if p.1 == k then (k, v) else p)
  else
    m ++ [(k, v)]

/-- Semantics of `HashMap::get`: the value stored under the key, if any. -/
def hashGet (k : String) (m : List (String × Nat)) : Option Nat :=
  (m.find? (fun p => p.1 == k)).map Prod.snd

/-- Semantics of `HashMap::remove`: drop the entry with the given key. -/
def hashRemove (k : String) (m : List (String × Nat)) :
    List (String × Nat) :=
  m.filter (fun p => p.1 != k)

/-- Registration `register_command`: insert the handler into `HANDLERS` under `command`,
then unconditionally issue the host-side `commands::register_command`
declaration for that name. -/
def register_command (s : CommandState) (command : String) (handler : Nat) :
    CommandState :=
  { handlers := hashInsert command handler s.handlers,
    declared := s.declared ++ [command] }

/-- The disposer closure returned by `register_command`: it captures only
the name (`let unregister = command.to_string()`) and removes whatever
`HANDLERS` currently maps that name to. -/
def unregister_command (s : CommandState) (command : String) : CommandState :=
  { s with handlers := hashRemove command s.handlers }

/-- Dispatch `execute_command`: look the name up in `HANDLERS`; if a handler is
there, invoke it (observable as its tag), otherwise do nothing.  Returns
the list of handler invocations the call performs. -/
def execute_command (s : CommandState) (command : String) : List Nat :=
  match hashGet command s.handlers with
  | some h => [h]
  | none => []

/-!
The `EventEmitter` duplicate in `vscode-rust-api/rust/src/common/mod.rs`:
`on` inserts without ever calling the stored `hook`, `remove` (the body of
the disposer) removes without ever calling `unhook`, and `fire` only
invokes listeners.
-/

namespace VsCodeApi

/-- State of the `vscode-rust-api` EventEmitter duplicate, with the same
observation counters for the stored (but, in this variant, unused) `hook`
and `unhook` procedures. -/
structure VState where
  nextId : Nat
  listeners : List (Nat × Nat)
  hookCalls : Nat
  unhookCalls : Nat
deriving Repr, DecidableEq

/-- Constructor `EventEmitter::new` of the duplicate: `next_id = 1`, empty map, the
stored `hook` / `unhook` not invoked. -/
def VState.initial : VState :=
  { nextId := 1, listeners := [], hookCalls := 0, unhookCalls := 0 }

/-- A client-visible operation on the duplicate emitter: `on`, the
disposer (which calls `remove(id)`), or `fire`. -/
inductive VOp where
  | on (tag : Nat)
  | remove (id : Nat)
  | fire
deriving Repr, DecidableEq

/-- One operation of the duplicate applied to its state: `on` assigns
`next_id` and inserts (no hook call), `remove` drops the entry (no unhook
call), `fire` invokes the listeners and leaves the state unchanged. -/
def VOp.step (s : VState) : VOp → VState
  | VOp.on tag =>
      { s with
          nextId := s.nextId + 1,
          listeners :=
            if s.listeners.any (fun p => p.1 == s.nextId) then
              s.listeners.map (fun p =>
                if p.1 == s.nextId then (s.nextId, tag) else p)
            else
              s.listeners ++ [(s.nextId, tag)] }
  | VOp.remove id =>
      { s with listeners := s.listeners.filter (fun p => p.1 != id) }
  | VOp.fire => s

/-- The state of the duplicate emitter after a sequence of operations. -/
def runV (ops : List VOp) : VState :=
  ops.foldl VOp.step VState.initial

end VsCodeApi

/-!
Invariants of the emitter state, preserved by every operation.
-/

theorem find?_map_replace (k : String) (v : Nat) :
    ∀ m : List (String × Nat), m.any (fun p => p.1 == k) = true →
      (m.map (fun p => if p.1 == k then (k, v) else p)).find?
        (fun p => p.1 == k) = some (k, v) := by
  intro m
  induction m with
  | nil => intro h; simp at h
  | cons p rest ih =>
      intro h
      by_cases hp : (p.1 == k) = true
      · simp only [List.map_cons, if_pos hp]
        rw [List.find?_cons_of_pos]
        simp
      · simp only [List.map_cons, if_neg hp]
        rw [List.find?_cons_of_neg _ (by simpa using hp)]
        refine ih ?_
        simp only [List.any_cons, Bool.or_eq_true] at h
        rcases h with h | h
        · exact absurd h hp
        · exact h

theorem find?_append_absent (k : String) (v : Nat) :
    ∀ m : List (String × Nat), m.any (fun p => p.1 == k) = false →
      (m ++ [(k, v)]).find? (fun p => p.1 == k) = some (k, v) := by
  intro m
  induction m with
  | nil =>
      intro _
      rw [List.nil_append, List.find?_cons_of_pos]
      simp
  | cons p rest ih =>
      intro h
      simp only [List.any_cons, Bool.or_eq_false_iff] at h
      rw [List.cons_append, List.find?_cons_of_neg _ (by simp [h.1])]
      exact ih h.2

theorem hashGet_hashInsert (k : String) (v : Nat) (m : List (String × Nat)) :
    hashGet k (hashInsert k v m) = some v := by
  rw [hashGet, hashInsert]
  by_cases h : m.any (fun p => p.1 == k) = true
  · rw [if_pos h, find?_map_replace k v m h]
    rfl
  · rw [if_neg h, find?_append_absent k v m (Bool.not_eq_true _ ▸ h)]
    rfl

theorem hashGet_hashRemove (k : String) (m : List (String × Nat)) :
    hashGet k (hashRemove k m) = none := by
  rw [hashGet, hashRemove]
  have h : (m.filter (fun p => p.1 != k)).find? (fun p => p.1 == k) = none := by
    rw [List.find?_eq_none]
    intro x hx
    have hxk : (x.1 != k) = true := (List.mem_filter.mp hx).2
    simpa using hxk
  rw [h]
  rfl

/-!
Frame lemma for the `vscode-rust-api` duplicate: no operation touches the
stored `hook` / `unhook` procedures.
-/

theorem VsCodeApi.step_preserves_hooks (s : VsCodeApi.VState)
    (op : VsCodeApi.VOp) :
    (op.step s).hookCalls = s.hookCalls ∧
    (op.step s).unhookCalls = s.unhookCalls := by
  cases op <;> simp [VsCodeApi.VOp.step]

theorem VsCodeApi.foldl_preserves_hooks (ops : List VsCodeApi.VOp) :
    ∀ s : VsCodeApi.VState,
      (ops.foldl VsCodeApi.VOp.step s).hookCalls = s.hookCalls ∧
      (ops.foldl VsCodeApi.VOp.step s).unhookCalls = s.unhookCalls := by
  induction ops with
  | nil => intro s; exact ⟨rfl, rfl⟩
  | cons op rest ih =>
      intro s
      have h₁ := ih (op.step s)
      have h₂ := VsCodeApi.step_preserves_hooks s op
      exact ⟨h₁.1.trans h₂.1, h₁.2.trans h₂.2⟩

/-!
Claims.
-/

/-- C1: the claim says invoking a disposer a second time never re-invokes
`unhook`.  The code violates it: the disposer's emptiness check is
unconditional, so on the valid trace `on; dispose; dispose` the second
invocation finds the map already empty and fires `unhook` again — the
registry state after the second call equals the state after the first, but
the cumulative `unhook` count rises from 1 to 2. -/
theorem disposer_double_invocation_refires_unhook :
    validOps [Op.on 0 [], Op.dispose 1, Op.dispose 1] = true ∧
    (runOps [Op.on 0 [], Op.dispose 1]).listeners = [] ∧
    (runOps [Op.on 0 [], Op.dispose 1]).unhookCalls = 1 ∧
    (runOps [Op.on 0 [], Op.dispose 1, Op.dispose 1]).listeners = [] ∧
    (runOps [Op.on 0 [], Op.dispose 1, Op.dispose 1]).unhookCalls = 2 := by
  decide

/-- C2: the claim says a listener calling a disposer during `fire` must
not crash the fan-out.  The code violates it: `fire` iterates under a
shared `RefCell` borrow held for the whole loop, so the disposer's
`borrow_mut` panics.  On the valid one-listener trace where the listener
disposes its own handle 1, `fire` panics instead of completing. -/
theorem fire_reentrant_dispose_panics :
    validOps [Op.on 7 [1]] = true ∧
    EventEmitter.fire (runOps [Op.on 7 [1]]) =
      Except.error "RefCell BorrowMutError" :=
  ⟨by decide, rfl⟩

/-- C3: the claim says `unhook` never fires while the listener count is
already zero, hook/unhook counts never differ by more than one, and they
end equal once all listeners are disposed.  The code violates all three on
the valid trace `on; dispose; dispose; dispose`: after the first disposal
the count is zero and `unhook` has fired once, yet the two further
disposer invocations each fire `unhook` again, ending with `hook` called
once and `unhook` three times. -/
theorem unhook_fires_at_zero_count :
    validOps [Op.on 0 [], Op.dispose 1, Op.dispose 1, Op.dispose 1] = true ∧
    (runOps [Op.on 0 []]).hookCalls = 1 ∧
    (runOps [Op.on 0 [], Op.dispose 1]).listeners.length = 0 ∧
    (runOps [Op.on 0 [], Op.dispose 1]).unhookCalls = 1 ∧
    (runOps [Op.on 0 [], Op.dispose 1, Op.dispose 1, Op.dispose 1]).hookCalls = 1 ∧
    (runOps [Op.on 0 [], Op.dispose 1, Op.dispose 1, Op.dispose 1]).unhookCalls = 3 := by
  decide

/-- C5: registering twice under the same name leaves the table mapping the
name to the second handler (the first is silently replaced), and the
host-side `register_command` declaration is issued on both calls, without
deduplication by name. -/
theorem register_same_name_overwrites_and_redeclares (s : CommandState)
    (n : String) (h₁ h₂ : Nat) :
    hashGet n (register_command (register_command s n h₁) n h₂).handlers = some h₂ ∧
    (register_command (register_command s n h₁) n h₂).declared = s.declared ++ [n, n] := by
  constructor
  · exact hashGet_hashInsert n h₂ _
  · simp [register_command]

/-- C6: dispatch invokes the handler registered under the name exactly
once when one is present, and does nothing (without error) when none is. -/
theorem execute_command_dispatch (s : CommandState) (n : String) :
    (∀ h, hashGet n s.handlers = some h → execute_command s n = [h]) ∧
    (hashGet n s.handlers = none → execute_command s n = []) := by
  constructor
  · intro h hh
    rw [execute_command, hh]
  · intro hh
    rw [execute_command, hh]

/-- Witness for C6: dispatching a registered name invokes its handler
once; dispatching an unregistered name invokes nothing. -/
theorem execute_command_dispatch_witness :
    hashGet "run" (register_command CommandState.initial "run" 5).handlers = some 5 ∧
    execute_command (register_command CommandState.initial "run" 5) "run" = [5] ∧
    hashGet "missing" CommandState.initial.handlers = none ∧
    execute_command CommandState.initial "missing" = [] :=
  ⟨rfl,
   (execute_command_dispatch (register_command CommandState.initial "run" 5) "run").1 5 rfl,
   rfl,
   (execute_command_dispatch CommandState.initial "missing").2 rfl⟩

/-- C8: firing with an empty listener map invokes no listener, does not
fail, and leaves the registry state unchanged. -/
theorem fire_on_empty_is_noop (s : EmitterState) (h : s.listeners = []) :
    EventEmitter.fire s = Except.ok ([], s) := by
  rw [EventEmitter.fire, h]
  rfl

/-- Witness for C8 at the freshly constructed emitter. -/
theorem fire_on_empty_is_noop_witness :
    EmitterState.initial.listeners = [] ∧
    EventEmitter.fire EmitterState.initial = Except.ok ([], EmitterState.initial) :=
  ⟨rfl, fire_on_empty_is_noop EmitterState.initial rfl⟩

/-- C9: the disposer returned by `register_command` removes by name, not
by registration identity: after registering twice under one name, the
first registration's disposer removes the mapping currently held under the
name (the second handler), and dispatch then invokes nothing. -/
theorem command_disposer_removes_by_name (s : CommandState) (n : String)
    (h₁ h₂ : Nat) :
    hashGet n (unregister_command (register_command (register_command s n h₁) n h₂) n).handlers = none ∧
    execute_command (unregister_command (register_command (register_command s n h₁) n h₂) n) n = [] := by
  have h : hashGet n (unregister_command (register_command (register_command s n h₁) n h₂) n).handlers = none :=
    hashGet_hashRemove n _
  refine ⟨h, ?_⟩
  rw [execute_command, h]

/-- C10: in the `vscode-rust-api` duplicate of the emitter, no sequence of
`on`, `remove` and `fire` operations ever invokes the stored `hook` or
`unhook` procedures: both cumulative call counts stay zero. -/
theorem vscode_emitter_never_calls_hooks (ops : List VsCodeApi.VOp) :
    (VsCodeApi.runV ops).hookCalls = 0 ∧
    (VsCodeApi.runV ops).unhookCalls = 0 :=
  VsCodeApi.foldl_preserves_hooks ops VsCodeApi.VState.initial
